import Mathlib

/-!
Verification development for the lsproxy code-intelligence gateway.

The definitions below are shallow embeddings of the Rust sources:

* `src/lsproxy/src/handlers/read_source_code.rs` (HTTP handler for
  `POST /workspace/read-source-code`),
* `src/lsproxy/lsp-wrapper/src/manager.rs` (the in-container wrapper manager),
* `src/lsproxy/src/lsp/manager/manager.rs` (the gateway manager),
* `src/lsproxy/src/container/orchestrator.rs` and `src/lsproxy/src/container/mod.rs`
  (the container orchestrator),
* `src/lsproxy/lsp-wrapper/src/lsp_process.rs` (JSON-RPC transport),
* `src/lsproxy/src/container/http_client.rs` and `src/lsproxy/lsp-wrapper/src/main.rs`
  (remote-analyzer HTTP client and the wrapper's route table),
* `src/lsproxy/src/utils/file_utils.rs` (workspace file search),
* `src/lsproxy/src/handlers/list_files.rs` (HTTP handler for
  `GET /workspace/list-files`).

External collaborators (the Docker daemon, the filesystem walker's raw entry
stream, the glob matcher, the syntactic scanner, the analyzer subprocess) are
modelled as explicit parameters/oracles; everything the claims quantify over is
translated from the source.
-/

namespace LsProxy

/-! ### Rust line splitting

`str::lines` splits at `\n` (or `\r\n`), the final line ending being optional.
Both `read_source_code` implementations call `content.lines().collect()` before
slicing, so we embed that splitting on the underlying character list.
-/

/-- Strip one trailing carriage return, as Rust's `str::lines` does for `\r\n`
line endings. -/
def stripCR (cs : List Char) : List Char :=
  match cs.getLast? with
  | some '\r' => cs.dropLast
  | _ => cs

/-- Split a character list at a separator character; the accumulator holds the
current segment reversed. Every separator ends a segment (Rust
`str::split(sep)` semantics: splitting the empty string yields one empty
segment). -/
def splitChar (sep : Char) : List Char → List Char → List (List Char)
  | [], acc => [acc.reverse]
  | c :: rest, acc =>
    if c = sep then acc.reverse :: splitChar sep rest []
    else splitChar sep rest (c :: acc)

/-- Rust `str::lines` drops a final empty segment (the optional final line
ending). -/
def dropLastEmptySeg : List String → List String
  | [] => []
  | [l] => if l = "" then [] else [l]
  | l :: l' :: ls => l :: dropLastEmptySeg (l' :: ls)

/-- Embedding of Rust's `content.lines().collect::<Vec<_>>()`. -/
def rustLines (s : String) : List String :=
  dropLastEmptySeg ((splitChar '\n' s.data []).map (fun cs => String.mk (stripCR cs)))

/-- Embedding of `Vec<&str>::join("\n")`. -/
def joinNl : List String → String
  | [] => ""
  | [l] => l
  | l :: l' :: ls => l ++ "\n" ++ joinNl (l' :: ls)

/-! ### C1: the two `read_source_code` range implementations

`handlers/read_source_code.rs` lines 67–96 (gateway HTTP handler) and
`lsp-wrapper/src/manager.rs` lines 373–402 (wrapper manager). Both check
`start_line >= lines.len()`; the handler then slices `lines[start..end]` with
`end = end.min(lines.len())` (END-EXCLUSIVE), while the wrapper slices
`lines[start..=end]` with `end = end.min(lines.len() - 1)` (end-inclusive).
A Rust slice whose start exceeds its end panics; `Except.error` models both
the explicit error response and that panic.
-/

/-- Gateway HTTP handler body of `read_source_code` for the range case,
from `src/lsproxy/src/handlers/read_source_code.rs` lines 70–85. -/
def handlers_read_source_code (content : String) (range : Option (Nat × Nat)) :
    Except String String :=
  match range with
  | none => .ok content
  | some (startLine, endLine) =>
    let lines := rustLines content
    if startLine ≥ lines.length then
      .error "Start line out of range"
    else
      let endLine := min endLine lines.length
      if startLine > endLine then
        .error "slice index out of order"
      else
        .ok (joinNl ((lines.drop startLine).take (endLine - startLine)))

/-- Wrapper manager `Manager::read_source_code` for the range case, from
`src/lsproxy/lsp-wrapper/src/manager.rs` lines 385–398. -/
def wrapper_read_source_code (content : String) (range : Option (Nat × Nat)) :
    Except String String :=
  match range with
  | none => .ok content
  | some (startLine, endLine) =>
    let lines := rustLines content
    if startLine ≥ lines.length then
      .error "Start line is out of bounds"
    else
      let endLine := min endLine (lines.length - 1)
      if startLine > endLine + 1 then
        .error "slice index out of order"
      else
        .ok (joinNl ((lines.drop startLine).take (endLine + 1 - startLine)))

/-- C1 (code_bug evidence): on the two-line file "l0\nl1" with range
(0,0)–(1,0), the claim (and the wrapper manager) produce lines 0..=1 joined,
i.e. "l0\nl1", but the gateway handler's end-exclusive slice returns only
"l0". -/
theorem C1_read_source_code_end_exclusive_bug :
    handlers_read_source_code "l0\nl1" (some (0, 1)) = .ok "l0" ∧
    wrapper_read_source_code "l0\nl1" (some (0, 1)) = .ok "l0\nl1" ∧
    ("l0" : String) ≠ "l0\nl1" := by
  refine ⟨rfl, rfl, by decide⟩

/-! ### Language tags

`SupportedLanguages` from `api_types`, as used by the manager and the
orchestrator. -/

inductive SupportedLanguages where
  | python
  | typescriptJavascript
  | rust
  | cpp
  | csharp
  | java
  | golang
  | php
  | ruby
  | rubySorbet
deriving DecidableEq

/-! ### C2: orchestrator container map and `spawn_container`

`src/lsproxy/src/container/mod.rs` keeps `containers : Mutex<HashMap<lang,
ContainerInfo>>` with `get_container` (lookup), `store_container` (insert,
replacing) and `remove_container`. The map is embedded as an association list
with insert-replaces semantics. -/

structure ContainerInfo where
  container_id : String
  image_name : String
  port : Nat
  endpoint : String
deriving DecidableEq

/-- A mutex-guarded `HashMap` embedded as an association list. -/
def ContainerMap := List (SupportedLanguages × ContainerInfo)

/-- Embedding of `ContainerOrchestrator::get_container`. -/
def get_container (m : ContainerMap) (language : SupportedLanguages) :
    Option ContainerInfo :=
  (m.find? (fun p => p.1 = language)).map (fun p => p.2)

/-- Embedding of `ContainerOrchestrator::store_container` (`HashMap::insert`, replacing any
previous entry for the key). -/
def store_container (m : ContainerMap) (language : SupportedLanguages)
    (info : ContainerInfo) : ContainerMap :=
  (language, info) :: (m : List _).filter (fun p => !(p.1 = language : Bool))

inductive OrchestratorError where
  | docker (msg : String)
  | healthCheck (msg : String)
  | io (msg : String)
deriving DecidableEq

/-- Embedding of `ContainerOrchestrator::spawn_container`
(`src/lsproxy/src/container/orchestrator.rs` lines 19–141) as a state
transition on the container map. The Docker create/start round-trip and the
outcome of the 30-second `/health` polling loop are external effects, passed
as `createStart` and `healthOk`; `healthCheckEnabled` models the
`LSPROXY_ENABLE_HEALTH_CHECK` environment variable, and `newInfo` the record
assembled from the reserved port and generated name. The source stores the
record with `store_container` BEFORE running `check_container_health`, and a
health-check error propagates via `?` without removing it. -/
def spawn_container (m : ContainerMap) (language : SupportedLanguages)
    (newInfo : ContainerInfo) (createStart : Except String Unit)
    (healthCheckEnabled healthOk : Bool) :
    Except OrchestratorError ContainerInfo × ContainerMap :=
  match get_container m language with
  | some existing => (.ok existing, m)
  | none =>
    match createStart with
    | .error e => (.error (.docker e), m)
    | .ok () =>
      let m' := store_container m language newInfo
      if healthCheckEnabled then
        if healthOk then (.ok newInfo, m')
        else (.error (.healthCheck "health check timeout"), m')
      else (.ok newInfo, m')

/-- A concrete record for the Python container, as assembled by
`spawn_container` with host 0.0.0.0 and a reserved port 4242. -/
def pyInfo : ContainerInfo :=
  { container_id := "cid-1"
  , image_name := "lsproxy-python:latest"
  , port := 4242
  , endpoint := "http://0.0.0.0:4242" }

/-- C2 counterexample: spawning the Python container with the health check
enabled and failing returns the health-check error, but the container map
still holds the record afterwards (it was stored before the check), so the
state is NOT unchanged and the next request will NOT re-spawn. -/
theorem C2_spawn_container_record_retained_counterexample :
    (spawn_container [] .python pyInfo (.ok ()) true false).1
        = .error (.healthCheck "health check timeout") ∧
    get_container (spawn_container [] .python pyInfo (.ok ()) true false).2 .python
        = some pyInfo := by
  exact ⟨rfl, rfl⟩

/-- C2 as amended: if no record exists for the language and container
creation succeeds but the enabled health check fails, `spawn_container`
returns the health-check-failed error while the record stored before the
check REMAINS in the map; consequently any subsequent `spawn_container` for
that language returns the existing record without re-spawning. -/
theorem C2_spawn_container_health_failure_amended
    (m : ContainerMap) (language : SupportedLanguages) (info : ContainerInfo)
    (hnone : get_container m language = none) :
    (spawn_container m language info (.ok ()) true false).1
        = .error (.healthCheck "health check timeout") ∧
    get_container (spawn_container m language info (.ok ()) true false).2 language
        = some info ∧
    (∀ (info' : ContainerInfo) (cs : Except String Unit) (hc ho : Bool),
      (spawn_container (spawn_container m language info (.ok ()) true false).2
          language info' cs hc ho).1 = .ok info) := by
  have hstore : get_container (store_container m language info) language = some info := by
    simp [get_container, store_container, List.find?]
  refine ⟨?_, ?_, ?_⟩
  · simp [spawn_container, hnone]
  · simp [spawn_container, hnone, hstore]
  · intro info' cs hc ho
    have h2 : (spawn_container m language info (.ok ()) true false).2
        = store_container m language info := by
      simp [spawn_container, hnone]
    rw [h2]
    simp [spawn_container, hstore]

/-- C2 amended witness at a concrete state: the empty map, Python, `pyInfo`. -/
theorem C2_spawn_container_health_failure_amended_witness :
    (spawn_container [] .python pyInfo (.ok ()) true false).1
        = .error (.healthCheck "health check timeout") ∧
    get_container (spawn_container [] .python pyInfo (.ok ()) true false).2 .python
        = some pyInfo ∧
    (∀ (info' : ContainerInfo) (cs : Except String Unit) (hc ho : Bool),
      (spawn_container (spawn_container [] .python pyInfo (.ok ()) true false).2
          .python info' cs hc ho).1 = .ok pyInfo) :=
  C2_spawn_container_health_failure_amended [] .python pyInfo rfl

/-! ### C3: JSON-RPC request ids in the wrapper transport

`src/lsproxy/lsp-wrapper/src/lsp_process.rs`: `LspProcess` holds
`request_id : Mutex<u64>` and `pending_requests : HashMap<u64, Sender>`.
`send_request` (lines 193–241) uses the id already carried by the request if
present, and only increments the counter when `request.id` is `None`;
`PendingRequests::add_request` (lines 39–48) is a plain `HashMap::insert`,
replacing any live entry for the same id. The wrapper `Manager`
(`lsp-wrapper/src/manager.rs`) builds every `JsonRpcMessage` with
`id: Some(1)`. -/

structure JsonRpcMessage where
  jsonrpc : String
  id : Option Nat
  method : Option String
deriving DecidableEq

/-- Id assignment at the top of `LspProcess::send_request`: keep a present id,
otherwise increment the session counter and use its new value. Returns the
chosen id and the updated counter. -/
def assignRequestId (reqId : Option Nat) (counter : Nat) : Nat × Nat :=
  match reqId with
  | some i => (i, counter)
  | none => (counter + 1, counter + 1)

/-- Embedding of `PendingRequests::add_request`: `HashMap::insert` of id ↦ sink
(sinks are named by tokens), replacing any previous entry. -/
def add_request (pending : List (Nat × Nat)) (id sink : Nat) : List (Nat × Nat) :=
  (id, sink) :: pending.filter (fun p => !(p.1 = id : Bool))

/-- The registration phase of `LspProcess::send_request`: choose the id, then
insert the response sink into the pending table. -/
structure LspProcessState where
  requestId : Nat
  pending : List (Nat × Nat)
deriving DecidableEq

def send_request_register (st : LspProcessState) (req : JsonRpcMessage)
    (sink : Nat) : Nat × LspProcessState :=
  let idc := assignRequestId req.id st.requestId
  (idc.1, { requestId := idc.2, pending := add_request st.pending idc.1 sink })

/-- The request built by wrapper `Manager::find_definition`
(`lsp-wrapper/src/manager.rs` lines 176–183): `id: Some(1)`. -/
def wrapper_find_definition_request : JsonRpcMessage :=
  { jsonrpc := "2.0", id := some 1, method := some "textDocument/definition" }

/-- The request built by wrapper `Manager::find_references`
(`lsp-wrapper/src/manager.rs` lines 256–263): `id: Some(1)`. -/
def wrapper_find_references_request : JsonRpcMessage :=
  { jsonrpc := "2.0", id := some 1, method := some "textDocument/references" }

/-- The per-reference definition request built by wrapper
`Manager::find_referenced_symbols` (`lsp-wrapper/src/manager.rs` lines
334–341): `id: Some(1)`. -/
def wrapper_find_referenced_symbols_request : JsonRpcMessage :=
  { jsonrpc := "2.0", id := some 1, method := some "textDocument/definition" }

/-- C3 (code_bug evidence): in a fresh session, a `find_definition` request
followed by a `find_references` request are BOTH sent with id 1 (the Manager
hardcodes `Some(1)`, so `send_request` never draws from the counter), and the
second registration replaces the first request's pending sink: after the two
registrations the table holds only the second sink under id 1. Ids are
therefore reused within a session, refuting the claimed invariant. -/
theorem C3_request_id_reuse_bug :
    (send_request_register { requestId := 0, pending := [] }
        wrapper_find_definition_request 100).1 = 1 ∧
    (send_request_register
        (send_request_register { requestId := 0, pending := [] }
          wrapper_find_definition_request 100).2
        wrapper_find_references_request 200).1 = 1 ∧
    (send_request_register
        (send_request_register { requestId := 0, pending := [] }
          wrapper_find_definition_request 100).2
        wrapper_find_references_request 200).2.pending = [(1, 200)] ∧
    wrapper_find_referenced_symbols_request.id = some 1 := by
  refine ⟨rfl, rfl, rfl, rfl⟩

/-! ### C4: the wrapper response listener

`LspProcess::start_response_listener` (`lsp-wrapper/src/lsp_process.rs` lines
245–339). The reader loop alternates a header phase (`read_until b'\n'`) and a
body phase (`read_exact`). We embed the stdout byte stream as the list of
results successive reads yield: `line s` is a completed `read_until`, `body s`
a body chunk, `ioFail` a read error; an exhausted list is end-of-stream, where
`read_until` returns `n == 0` WITHOUT consuming anything — the source then
does `buffer.clear(); continue`, looping again on the same exhausted stream.
`fuel` bounds the number of loop iterations we run; pending sinks are the ids
registered in the table. JSON parsing of a body is an oracle returning `none`
on a parse error and `some id?` for a message with optional id. -/

inductive StreamRead where
  | line (s : String)
  | body (s : String)
  | ioFail
deriving DecidableEq

/-- Final observation of the reader task: either the task has returned
(`terminated`, via `return` on a header read error or `break` on a body read
error), or it is still looping when the fuel runs out (`running`). Both carry
the pending table as left by the task; the source never completes or removes
the sinks of outstanding requests in either case. -/
inductive ReaderOutcome where
  | terminated (pending : List (Nat × Nat))
  | running (pending : List (Nat × Nat))
deriving DecidableEq

/-- Embedding of `PendingRequests::remove_request`: `HashMap::remove`. -/
def remove_request (pending : List (Nat × Nat)) (id : Nat) : List (Nat × Nat) :=
  pending.filter (fun p => !(p.1 = id : Bool))

/-- Repeated removal of a leading pattern, Rust `str::trim_start_matches`. -/
def trimStartMatches (pat : String) (s : String) : String :=
  if h : pat.length ≠ 0 ∧ pat.data.isPrefixOf s.data then
    trimStartMatches pat (String.mk (s.data.drop pat.length))
  else s
termination_by s.data.length
decreasing_by
  have hp : 0 < pat.data.length := Nat.pos_of_ne_zero h.1
  have hle : pat.data.length ≤ s.data.length :=
    ( List.isPrefixOf_iff_prefix.mp h.2).length_le
  show (s.data.drop pat.data.length).length < s.data.length
  simp only [List.length_drop]
  omega

/-- One run of the response-listener loop, from
`start_response_listener`. Per source iteration: the inner header loop reads
lines until an empty line arrives after a `Content-Length` header (a read
error returns from the task; end-of-stream clears the buffer and retries); the
body phase `read_exact`s the JSON body (an error or end-of-stream breaks out
of the outer loop); a parsed message with an id is routed by removing its
pending entry, all other outcomes just continue. -/
def readerRun (parse : String → Option (Option Nat)) :
    Nat → List StreamRead → Option Nat → List (Nat × Nat) → ReaderOutcome
  | 0, _, _, pending => .running pending
  | _ + 1, [], _, pending =>
    -- read_until returned n == 0 (end of stream): buffer.clear(); continue
    .running pending
  | _ + 1, .ioFail :: _, _, pending =>
    -- "Failed to read from LSP stdout": return
    .terminated pending
  | fuel + 1, .body _ :: rest, contentLength, pending =>
    -- in the header phase read_until consumes body bytes as an ordinary
    -- non-header line
    readerRun parse fuel rest contentLength pending
  | fuel + 1, .line s :: rest, contentLength, pending =>
    if s.trim = "" ∧ contentLength.isSome then
      -- empty separator line with a Content-Length at hand: read the body
      match rest with
      | [] => .terminated pending          -- read_exact fails at end of stream: break
      | .ioFail :: _ => .terminated pending -- "Failed to read JSON body": break
      | .line _ :: rest' => readerRun parse fuel rest' none pending
      | .body b :: rest' =>
        match parse b with
        | none => readerRun parse fuel rest' none pending
        | some none => readerRun parse fuel rest' none pending
        | some (some id) => readerRun parse fuel rest' none (remove_request pending id)
    else if ("Content-Length: ").data.isPrefixOf s.data then
      match (trimStartMatches "Content-Length: " s).trim.toNat? with
      | some len => readerRun parse fuel rest (some len) pending
      | none => readerRun parse fuel rest contentLength pending
    else readerRun parse fuel rest contentLength pending

/-- C4 (code_bug evidence): with one outstanding request (id 1, sink 100),
(a) when the child's stdout reaches end of stream the reader loops forever —
for EVERY fuel bound it is still `running` and the pending sink is still
registered, never completed with any signal — and (b) a fatal read error
makes the task return with the pending sink likewise still registered. In
both cases the caller awaiting sink 100 is never woken by the listener. -/
theorem C4_reader_pending_sinks_never_completed
    (parse : String → Option (Option Nat)) (fuel : Nat) :
    readerRun parse fuel [] none [(1, 100)] = .running [(1, 100)] ∧
    readerRun parse (fuel + 1) [.ioFail] none [(1, 100)] = .terminated [(1, 100)] := by
  cases fuel with
  | zero => exact ⟨rfl, rfl⟩
  | succ n => exact ⟨rfl, rfl⟩

/-- C4 witness at a concrete fuel and parse oracle. -/
theorem C4_reader_pending_sinks_never_completed_witness :
    readerRun (fun _ => none) 5 [] none [(1, 100)] = .running [(1, 100)] ∧
    readerRun (fun _ => none) 6 [.ioFail] none [(1, 100)] = .terminated [(1, 100)] :=
  C4_reader_pending_sinks_never_completed (fun _ => none) 5

/-! ### C5: remote-analyzer client URLs vs the wrapper's route table

`src/lsproxy/src/container/http_client.rs`: `ContainerHttpClient::new`
(lines 17–23) sets `base_url = format!("http://{}", endpoint)`, and each
operation appends its fixed path to `base_url`. The endpoint recorded by
`spawn_container` (`orchestrator.rs` line 111) is already
`format!("http://{}:{}", host, port)`, and `ContainerManager` passes exactly
`container_info.endpoint` to `ContainerHttpClient::new`
(`container_manager.rs` lines 79, 115, 118). The wrapper's HTTP server
(`lsp-wrapper/src/main.rs` lines 103–118) serves the routes listed in
`wrapperRoutes`. -/

/-- The endpoint string recorded by the orchestrator:
`format!("http://{}:{}", host, port)`. -/
def orchestrator_endpoint (host : String) (port : Nat) : String :=
  "http://" ++ host ++ ":" ++ toString port

/-- Embedding of `ContainerHttpClient::new`: the base URL is the string "http://" glued in front of the recorded endpoint. -/
def container_http_client_base_url (endpoint : String) : String :=
  "http://" ++ endpoint

/-- Request URL of `ContainerHttpClient::find_definition` (line 42). -/
def client_find_definition_url (baseUrl : String) : String :=
  baseUrl ++ "/symbol/find-definition"

/-- Request URL of `ContainerHttpClient::find_references` (line 59). -/
def client_find_references_url (baseUrl : String) : String :=
  baseUrl ++ "/symbol/find-references"

/-- Request URL of `ContainerHttpClient::find_identifier` (line 76). -/
def client_find_identifier_url (baseUrl : String) : String :=
  baseUrl ++ "/symbol/find-identifier"

/-- Request URL of `ContainerHttpClient::find_referenced_symbols` (line 93). -/
def client_find_referenced_symbols_url (baseUrl : String) : String :=
  baseUrl ++ "/symbol/find-referenced-symbols"

/-- Request URL of `ContainerHttpClient::definitions_in_file` (line 109). -/
def client_definitions_in_file_url (baseUrl : String) : String :=
  baseUrl ++ "/symbol/definitions-in-file"

/-- Request URL of `ContainerHttpClient::list_files` (line 123), a GET. -/
def client_list_files_url (baseUrl : String) : String :=
  baseUrl ++ "/file/list-files"

/-- Request URL of `ContainerHttpClient::read_source` (line 145), a POST. -/
def client_read_source_url (baseUrl : String) : String :=
  baseUrl ++ "/file/read-source"

/-- The route table served by the in-container wrapper
(`lsp-wrapper/src/main.rs` lines 103–118), as (method, path) pairs. -/
def wrapperRoutes : List (String × String) :=
  [ ("GET", "/health")
  , ("POST", "/symbol/find-identifier")
  , ("POST", "/symbol/find-definition")
  , ("POST", "/symbol/find-references")
  , ("POST", "/symbol/find-referenced-symbols")
  , ("POST", "/symbol/definitions-in-file")
  , ("GET", "/workspace/list-files")
  , ("POST", "/workspace/read-source-code") ]

/-- C5 (code_bug evidence): for a Python container whose recorded endpoint is
"http://0.0.0.0:4242", (a) the client's base URL doubles the scheme, so even
the matching /symbol routes are addressed as "http://http://…"; (b) the
workspace operations use paths /file/list-files and /file/read-source, which
the wrapper does not serve — it serves GET /workspace/list-files and
POST /workspace/read-source-code instead. The client's request URLs therefore
do not match the wrapper's routes as the claim states. -/
theorem C5_client_urls_do_not_match_wrapper_routes :
    container_http_client_base_url (orchestrator_endpoint "0.0.0.0" 4242)
        = "http://http://0.0.0.0:4242" ∧
    client_list_files_url
        (container_http_client_base_url (orchestrator_endpoint "0.0.0.0" 4242))
        = "http://http://0.0.0.0:4242/file/list-files" ∧
    wrapperRoutes.contains ("GET", "/file/list-files") = false ∧
    wrapperRoutes.contains ("GET", "/workspace/list-files") = true ∧
    client_read_source_url
        (container_http_client_base_url (orchestrator_endpoint "0.0.0.0" 4242))
        = "http://http://0.0.0.0:4242/file/read-source" ∧
    wrapperRoutes.contains ("POST", "/file/read-source") = false ∧
    wrapperRoutes.contains ("POST", "/workspace/read-source-code") = true ∧
    client_find_definition_url "" = "/symbol/find-definition" ∧
    wrapperRoutes.contains ("POST", "/symbol/find-definition") = true := by
  refine ⟨rfl, rfl, by decide, by decide, rfl, by decide, by decide, rfl, by decide⟩

/-! ### Manager operations (C6, C7)

`src/lsproxy/src/lsp/manager/manager.rs` and
`src/lsproxy/lsp-wrapper/src/manager.rs`. The analyzer round-trips, the
syntactic scanner and the document reader are external effects, passed as
`Except` results/oracles; the control structure around them — the workspace
file-list checks and the per-reference collection loop — is translated from
the source. -/

inductive LspManagerError where
  | fileNotFound (path : String)
  | lspClientNotFound (language : SupportedLanguages)
  | internalError (msg : String)
  | unsupportedFileType (path : String)
  | notImplemented (msg : String)
deriving DecidableEq

/-- Embedding of `Manager::find_definition` (gateway `manager.rs` lines 292–350): the
file-list check, then language detection, client lookup, the analyzer call
and result sorting (abstracted as `downstream`). -/
def find_definition {δ : Type} (files : List String) (filePath : String)
    (downstream : Except LspManagerError δ) : Except LspManagerError δ :=
  if !(files.contains filePath) then .error (.fileNotFound filePath)
  else downstream

/-- Embedding of `Manager::find_references` (gateway `manager.rs` lines 359–388): same
shape as `find_definition`. -/
def find_references {δ : Type} (files : List String) (filePath : String)
    (downstream : Except LspManagerError δ) : Except LspManagerError δ :=
  if !(files.contains filePath) then .error (.fileNotFound filePath)
  else downstream

/-- Embedding of `Manager::definitions_in_file_ast_grep` (gateway `manager.rs` lines
258–273): file-list check, then the scanner call. -/
def definitions_in_file_ast_grep {δ : Type} (files : List String)
    (filePath : String) (scanner : Except String δ) :
    Except LspManagerError δ :=
  if !(files.contains filePath) then .error (.fileNotFound filePath)
  else
    match scanner with
    | .ok r => .ok r
    | .error e => .error (.internalError ("Symbol retrieval failed: " ++ e))

/-- Embedding of `Manager::get_file_identifiers` (gateway `manager.rs` lines 508–528):
file-list check, then the scanner call. -/
def get_file_identifiers {δ : Type} (files : List String) (filePath : String)
    (scanner : Except String δ) : Except LspManagerError δ :=
  if !(files.contains filePath) then .error (.fileNotFound filePath)
  else
    match scanner with
    | .ok r => .ok r
    | .error e => .error (.internalError ("Symbol retrieval failed: " ++ e))

/-- Embedding of `Manager::get_symbol_from_position` (gateway `manager.rs` lines 275–290,
wrapper `manager.rs` lines 132–147): the source joins the path onto the mount
directory and queries the scanner directly — there is NO file-list check; the
workspace file list (first argument) is never consulted. -/
def get_symbol_from_position {σ : Type} (_files : List String)
    (_filePath : String) (scannerResult : Except String σ) :
    Except LspManagerError σ :=
  match scannerResult with
  | .ok s => .ok s
  | .error e => .error (.internalError e)

/-- Embedding of `Manager::read_source_code` (gateway `manager.rs` lines 489–506):
language detection (whose error propagates), client lookup, then the
workspace-documents read — again with NO file-list check. -/
def manager_read_source_code (_files : List String) (_filePath : String)
    (detect : Except LspManagerError SupportedLanguages)
    (hasClient : SupportedLanguages → Bool)
    (readResult : Except String String) : Except LspManagerError String :=
  match detect with
  | .error e => .error e
  | .ok lang =>
    if hasClient lang then
      match readResult with
      | .ok content => .ok content
      | .error e => .error (.internalError ("Source code retrieval failed: " ++ e))
    else .error (.lspClientNotFound lang)

/-- The per-reference collection loop of `Manager::find_referenced_symbols`
(wrapper `manager.rs` lines 318–361, gateway `manager.rs` lines 439–459): for
each scanner match in emission order, request the definition; push the pair
on success, log and skip on failure. -/
def collect_definitions {α β : Type} (defn : α → Except String β) :
    List α → List (α × β)
  | [] => []
  | r :: rest =>
    match defn r with
    | .ok d => (r, d) :: collect_definitions defn rest
    | .error _ => collect_definitions defn rest

/-- Embedding of `Manager::find_referenced_symbols` (wrapper `manager.rs` lines 286–371;
the gateway version at `manager.rs` lines 390–469 adds a supported-language
gate ahead of the scanner but shares the file-list check, the collection
loop and the final emptiness test verbatim). `scanner` is the result of
`get_symbol_and_references`, `defn` the per-site analyzer call. -/
def find_referenced_symbols {α β : Type} (files : List String)
    (filePath : String) (scanner : Except String (List α))
    (defn : α → Except String β) :
    Except LspManagerError (List (α × β)) :=
  if !(files.any (fun f => f == filePath)) then .error (.fileNotFound filePath)
  else
    match scanner with
    | .error e =>
      .error (.internalError ("Failed to find referenced symbols, " ++ e))
    | .ok refs =>
      let definitions := collect_definitions defn refs
      if definitions.isEmpty && !refs.isEmpty then
        .error (.internalError
          "Failed to retrieve any definitions for the referenced symbols")
      else .ok definitions

/-- The collection loop keeps exactly the successful sites, as pairs, in the
order the scanner emitted them. -/
theorem collect_definitions_eq_filterMap {α β : Type}
    (defn : α → Except String β) (refs : List α) :
    collect_definitions defn refs = refs.filterMap (fun r =>
      match defn r with
      | .ok d => some (r, d)
      | .error _ => none) := by
  induction refs with
  | nil => rfl
  | cons r rest ih =>
    cases h : defn r with
    | ok d => simp [collect_definitions, List.filterMap_cons, h, ih]
    | error e => simp [collect_definitions, List.filterMap_cons, h, ih]

/-- C6 (confirmed): when the file is present and the scanner succeeded,
`find_referenced_symbols` returns exactly the (scanner match, definition)
pairs of the sites whose definition call succeeded, in scanner emission
order; it errors exactly when that list is empty while the reference set was
non-empty. -/
theorem C6_find_referenced_symbols_per_site_failures {α β : Type}
    (files : List String) (filePath : String) (refs : List α)
    (defn : α → Except String β)
    (hfile : files.any (fun f => f == filePath) = true) :
    find_referenced_symbols files filePath (.ok refs) defn =
      (let successes := refs.filterMap (fun r =>
        match defn r with
        | .ok d => some (r, d)
        | .error _ => none)
       if successes.isEmpty && !refs.isEmpty then
         .error (.internalError
           "Failed to retrieve any definitions for the referenced symbols")
       else .ok successes) := by
  simp only [find_referenced_symbols, hfile, Bool.not_true, Bool.false_eq_true,
    if_false, collect_definitions_eq_filterMap]

/-- C6 witness: five reference sites of which the definition call fails on
two; the result is the three successful pairs, in order, and the operation
does not fail overall. -/
theorem C6_find_referenced_symbols_per_site_failures_witness :
    find_referenced_symbols ["main.py"] "main.py" (.ok [0, 1, 2, 3, 4])
        (fun n => if n % 2 == 0 then .ok (n * 10) else .error "boom")
      = .ok [(0, 0), (2, 20), (4, 40)] := by
  have h := C6_find_referenced_symbols_per_site_failures (β := Nat)
    ["main.py"] "main.py" [0, 1, 2, 3, 4]
    (fun n => if n % 2 == 0 then .ok (n * 10) else .error "boom") (by decide)
  simpa using h

/-- C7 counterexample: with an EMPTY workspace file list and path "main.py"
(so the path is certainly not in the list), `get_symbol_from_position`
consults the scanner and returns its symbol instead of file-not-found, and
`read_source_code` likewise reads and returns content — both skip the
claimed precondition check. -/
theorem C7_unchecked_operations_counterexample :
    get_symbol_from_position ([] : List String) "main.py" (.ok (0 : Nat))
        = .ok 0 ∧
    get_symbol_from_position ([] : List String) "main.py" (.ok (0 : Nat))
        ≠ .error (.fileNotFound "main.py") ∧
    manager_read_source_code ([] : List String) "main.py" (.ok .python)
        (fun _ => true) (.ok "content") = .ok "content" ∧
    manager_read_source_code ([] : List String) "main.py" (.ok .python)
        (fun _ => true) (.ok "content") ≠ .error (.fileNotFound "main.py") := by
  refine ⟨rfl, fun h => Except.noConfusion h, rfl, fun h => Except.noConfusion h⟩

/-- C7 as amended: `find_definition`, `find_references`,
`definitions_in_file`, `get_file_identifiers` and `find_referenced_symbols`
do verify the path against the workspace file list first and return
file-not-found for an absent path, whatever the analyzer or scanner would
answer; `get_symbol_from_position` and `read_source_code` perform no such
check — their result is completely independent of the file list. -/
theorem C7_file_list_precondition_amended {α δ : Type}
    (files : List String) (filePath : String)
    (hnot : files.contains filePath = false)
    (d1 d2 : Except LspManagerError δ) (s1 s2 : Except String δ)
    (scanner : Except String (List α)) (defn : α → Except String δ) :
    find_definition files filePath d1 = .error (.fileNotFound filePath) ∧
    find_references files filePath d2 = .error (.fileNotFound filePath) ∧
    definitions_in_file_ast_grep files filePath s1
        = .error (.fileNotFound filePath) ∧
    get_file_identifiers files filePath s2
        = .error (.fileNotFound filePath) ∧
    find_referenced_symbols files filePath scanner defn
        = .error (.fileNotFound filePath) ∧
    (∀ (sc : Except String δ),
      get_symbol_from_position files filePath sc
        = get_symbol_from_position [] filePath sc) ∧
    (∀ (detect : Except LspManagerError SupportedLanguages)
        (hasClient : SupportedLanguages → Bool) (rd : Except String String),
      manager_read_source_code files filePath detect hasClient rd
        = manager_read_source_code [] filePath detect hasClient rd) := by
  have hmem : filePath ∉ files := by simpa using hnot
  have hany : (files.any fun f => f == filePath) = false := by
    rw [List.any_eq_false]
    intro x hx h
    have hx2 : x = filePath := by simpa using h
    exact hmem (hx2 ▸ hx)
  refine ⟨?_, ?_, ?_, ?_, ?_, fun _ => rfl, fun _ _ _ => rfl⟩
  · unfold find_definition
    rw [hnot]
    rfl
  · unfold find_references
    rw [hnot]
    rfl
  · unfold definitions_in_file_ast_grep
    rw [hnot]
    rfl
  · unfold get_file_identifiers
    rw [hnot]
    rfl
  · unfold find_referenced_symbols
    rw [hany]
    rfl

/-- C7 amended witness: workspace file list ["a.py"], absent path "b.py". -/
theorem C7_file_list_precondition_amended_witness :
    find_definition ["a.py"] "b.py" (.ok (0 : Nat))
        = .error (.fileNotFound "b.py") ∧
    find_references ["a.py"] "b.py" (.ok (0 : Nat))
        = .error (.fileNotFound "b.py") ∧
    definitions_in_file_ast_grep ["a.py"] "b.py" (.ok (0 : Nat))
        = .error (.fileNotFound "b.py") ∧
    get_file_identifiers ["a.py"] "b.py" (.ok (0 : Nat))
        = .error (.fileNotFound "b.py") ∧
    find_referenced_symbols ["a.py"] "b.py" (.ok ([] : List Nat))
        (fun _ => (.error "e" : Except String Nat))
        = .error (.fileNotFound "b.py") ∧
    (∀ (sc : Except String Nat),
      get_symbol_from_position ["a.py"] "b.py" sc
        = get_symbol_from_position [] "b.py" sc) ∧
    (∀ (detect : Except LspManagerError SupportedLanguages)
        (hasClient : SupportedLanguages → Bool) (rd : Except String String),
      manager_read_source_code ["a.py"] "b.py" detect hasClient rd
        = manager_read_source_code [] "b.py" detect hasClient rd) :=
  C7_file_list_precondition_amended ["a.py"] "b.py" (by decide)
    (.ok 0) (.ok 0) (.ok 0) (.ok 0) (.ok ([] : List Nat))
    (fun _ => (.error "e" : Except String Nat))

/-! ### C8: the three `list_files` implementations

* gateway `Manager::list_files` (`src/lsp/manager/manager.rs` lines 471–487):
  extends one vector with every analyzer client's (relative-path-converted)
  document list, in client-map iteration order, then `files.sort()` — and
  NOTHING else: no `dedup`;
* gateway HTTP handler (`src/handlers/list_files.rs` lines 17–50): walks the
  workspace, collects the relative path of every file entry, then
  `files.sort(); files.dedup();`
* wrapper `Manager::list_files` (`lsp-wrapper/src/manager.rs` lines 54–80):
  walks the workspace and returns the collected relative paths in walk order —
  no sort, no dedup.

Rust `Vec::sort` is a stable sort by `Ord`, embedded as `List.mergeSort`;
`Vec::dedup` removes CONSECUTIVE duplicates, embedded as `vecDedup`. -/

/-- Rust `Vec::dedup`: drop an element equal to its predecessor. -/
def vecDedup : List String → List String
  | [] => []
  | [a] => [a]
  | a :: b :: rest =>
    if a = b then vecDedup (a :: rest) else a :: vecDedup (b :: rest)
termination_by l => l.length

/-- Gateway `Manager::list_files`: the concatenation of the per-client
document lists (each already converted to relative-path strings), sorted.
`docLists` is given in client-map iteration order. -/
def manager_list_files (docLists : List (List String)) : List String :=
  docLists.flatten.mergeSort

/-- A (file-or-directory, relative-path) entry yielded by the workspace walk,
after `strip_prefix`/`to_str` processing. -/
structure WalkEntry where
  isFile : Bool
  relPath : Option String
deriving DecidableEq

/-- Gateway HTTP handler `list_files`: collect the relative path of each file
entry of the walk, sort, then dedup. -/
def handler_list_files (entries : List WalkEntry) : List String :=
  vecDedup ((entries.filterMap
    (fun e => if e.isFile then e.relPath else none)).mergeSort)

/-- Wrapper `Manager::list_files`: collect the relative path of each file
entry, in walk order; no sorting, no dedup. -/
def wrapper_list_files (entries : List WalkEntry) : List String :=
  entries.filterMap (fun e => if e.isFile then e.relPath else none)

/-- C8 counterexample: (a) when the Python and TypeScript clients' document
sets both contain "a.py" (overlapping analyzer scopes), the gateway manager's
`list_files` returns "a.py" TWICE — the result is not deduplicated; (b) when
the wrapper's directory walk yields "b.py" before "a.py", the wrapper's
`list_files` returns them in that order — the result is not sorted. -/
theorem C8_list_files_counterexample :
    manager_list_files [["a.py"], ["a.py"]] = ["a.py", "a.py"] ∧
    ¬ (manager_list_files [["a.py"], ["a.py"]]).Nodup ∧
    wrapper_list_files [⟨true, some "b.py"⟩, ⟨true, some "a.py"⟩]
        = ["b.py", "a.py"] ∧
    ¬ List.Sorted (· ≤ ·)
        (wrapper_list_files [⟨true, some "b.py"⟩, ⟨true, some "a.py"⟩]) := by
  have h1 : manager_list_files [["a.py"], ["a.py"]] = ["a.py", "a.py"] := by
    have : List.Sorted (· ≤ ·) ["a.py", "a.py"] := by
      simp [List.sorted_cons]
    simpa [manager_list_files] using List.mergeSort_eq_self this
  refine ⟨h1, ?_, rfl, ?_⟩
  · rw [h1]
    simp
  · intro hs
    have hba := List.rel_of_sorted_cons hs "a.py" (by simp)
    have hb : ¬ ("b.py" : String) ≤ "a.py" := by
      rw [not_le, String.lt_iff_toList_lt]
      decide
    exact hb hba

/-- Dedup of consecutive duplicates never loses membership. -/
theorem mem_vecDedup (x : String) :
    ∀ l : List String, x ∈ vecDedup l ↔ x ∈ l := by
  intro l
  induction l using vecDedup.induct with
  | case1 => simp [vecDedup]
  | case2 a => simp [vecDedup]
  | case3 b rest ih =>
    rw [vecDedup, if_pos rfl, ih]
    simp only [List.mem_cons]
    tauto
  | case4 a b rest hab ih =>
    rw [vecDedup, if_neg hab]
    simp [ih]

/-- On a `≤`-sorted list, dedup of consecutive duplicates yields a
`<`-sorted (hence duplicate-free) list. -/
theorem vecDedup_sorted_lt :
    ∀ l : List String, List.Sorted (· ≤ ·) l →
      List.Sorted (· < ·) (vecDedup l) := by
  intro l
  induction l using vecDedup.induct with
  | case1 => intro _; simp [vecDedup]
  | case2 a => intro _; simp [vecDedup]
  | case3 b rest ih =>
    intro hs
    rw [vecDedup, if_pos rfl]
    exact ih (List.sorted_cons.mp hs).2
  | case4 a b rest hab ih =>
    intro hs
    rw [vecDedup, if_neg hab]
    rcases List.sorted_cons.mp hs with ⟨h1, h2⟩
    refine List.sorted_cons.mpr ⟨?_, ih h2⟩
    intro c hc
    have hcmem : c ∈ b :: rest := (mem_vecDedup c _).mp hc
    have hale : a ≤ c := h1 c hcmem
    rcases List.mem_cons.mp hcmem with rfl | hcr
    · exact lt_of_le_of_ne hale hab
    · have hbc : b ≤ c := List.rel_of_sorted_cons h2 c hcr
      exact lt_of_lt_of_le (lt_of_le_of_ne (h1 b (List.mem_cons.mpr (Or.inl rfl))) hab) hbc

/-- C8 as amended: the gateway manager's `list_files` returns the
concatenation of the analyzers' document lists sorted (stably, by the string
order), RETAINING any duplicates across analyzers, and its output is
canonical: any client-map iteration order of the same document lists yields
the identical list, so repeated calls on an unchanged workspace agree. The
gateway HTTP handler's `list_files` does sort AND deduplicate: its output is
strictly sorted, duplicate-free, and has the same members as the walked file
set. (The wrapper manager's `list_files` returns walk order unchanged.) -/
theorem C8_list_files_amended (docLists docLists' : List (List String))
    (hperm : docLists.flatten.Perm docLists'.flatten) (entries : List WalkEntry) :
    List.Sorted (· ≤ ·) (manager_list_files docLists) ∧
    (manager_list_files docLists).Perm docLists.flatten ∧
    manager_list_files docLists = manager_list_files docLists' ∧
    List.Sorted (· < ·) (handler_list_files entries) ∧
    (handler_list_files entries).Nodup ∧
    (∀ x, x ∈ handler_list_files entries ↔
      x ∈ entries.filterMap (fun e => if e.isFile then e.relPath else none)) := by
  have hsorted : List.Sorted (· ≤ ·) (manager_list_files docLists) :=
    List.sorted_mergeSort' _
  have hsorted' : List.Sorted (· ≤ ·) (manager_list_files docLists') :=
    List.sorted_mergeSort' _
  have hp : (manager_list_files docLists).Perm docLists.flatten :=
    List.mergeSort_perm _ _
  have hp' : (manager_list_files docLists').Perm docLists'.flatten :=
    List.mergeSort_perm _ _
  have hsortedh : List.Sorted (· < ·) (handler_list_files entries) :=
    vecDedup_sorted_lt _ (List.sorted_mergeSort' _)
  refine ⟨hsorted, hp, ?_, hsortedh, hsortedh.nodup, ?_⟩
  · exact List.eq_of_perm_of_sorted
      (hp.trans (hperm.trans hp'.symm)) hsorted hsorted'
  · intro x
    rw [handler_list_files, mem_vecDedup]
    exact (List.mergeSort_perm _ _).mem_iff

/-- C8 amended witness: two overlapping document lists in both iteration
orders, and a three-entry walk containing one directory and a duplicate
file. -/
theorem C8_list_files_amended_witness :
    List.Sorted (· ≤ ·) (manager_list_files [["b.py", "a.py"], ["a.py"]]) ∧
    (manager_list_files [["b.py", "a.py"], ["a.py"]]).Perm
      (([["b.py", "a.py"], ["a.py"]] : List (List String)).flatten) ∧
    manager_list_files [["b.py", "a.py"], ["a.py"]]
      = manager_list_files [["a.py"], ["b.py", "a.py"]] ∧
    List.Sorted (· < ·) (handler_list_files
      [⟨true, some "b.py"⟩, ⟨false, some "sub"⟩, ⟨true, some "b.py"⟩]) ∧
    (handler_list_files
      [⟨true, some "b.py"⟩, ⟨false, some "sub"⟩, ⟨true, some "b.py"⟩]).Nodup ∧
    (∀ x, x ∈ handler_list_files
        [⟨true, some "b.py"⟩, ⟨false, some "sub"⟩, ⟨true, some "b.py"⟩] ↔
      x ∈ ([⟨true, some "b.py"⟩, ⟨false, some "sub"⟩, ⟨true, some "b.py"⟩] :
        List WalkEntry).filterMap (fun e => if e.isFile then e.relPath else none)) :=
  C8_list_files_amended [["b.py", "a.py"], ["a.py"]] [["a.py"], ["b.py", "a.py"]]
    (by decide)
    [⟨true, some "b.py"⟩, ⟨false, some "sub"⟩, ⟨true, some "b.py"⟩]

/-! ### C9: sequential vs parallel workspace search

`src/lsproxy/src/utils/file_utils.rs`: `search_paths_sequential` (lines
37–73) and `search_paths` (lines 75–161). Both configure the same walker
(`git_ignore(respect_gitignore)`, a `filter_entry` rejecting entries matched
by any exclude glob), then per yielded entry (a) skip it unless some include
glob matches its full path, (b) apply `FileType::accept`, (c) push the
resulting path, and finally collect through a `HashSet` — a SET result. The
walker's directory traversal (with its ignore handling) is embedded as a
tree of entries with pruning; the glob matcher
(`glob::Pattern::new(p).map(|g| g.matches_path(path)).unwrap_or(false)`) is
the oracle `pm`. The parallel walker delivers the same pruned entries in a
scheduler-dependent order, embedded as a permuted schedule. -/

structure FsEntry where
  path : String
  isDir : Bool
  isFile : Bool
  parent : Option String
deriving DecidableEq

/-- The `FileType` enumeration from `file_utils.rs` lines 19–23. -/
inductive FileType where
  | dir
  | file
deriving DecidableEq

/-- Embedding of `FileType::accept` (`file_utils.rs` lines 25–35): the effective path to
add, if any — for `Dir` on a file, the file's parent directory. -/
def FileType.accept : FileType → FsEntry → Option String
  | .dir, e =>
    if e.isDir then some e.path
    else if e.isFile then e.parent
    else none
  | .file, e => if e.isFile then some e.path else none

/-- A directory tree of walk entries. -/
inductive FsTree where
  | node (entry : FsEntry) (children : List FsTree)

/-- One glob of `patterns` matches `path`
(`patterns.iter().any(|pattern| …matches_path(path)…)`). -/
def matchesAnyPattern (pm : String → String → Bool) (patterns : List String)
    (path : String) : Bool :=
  patterns.any (fun pat => pm pat path)

/-- The walker's `filter_entry` predicate (`build_walk` lines 163–177 and the
parallel builder lines 87–98): keep an entry unless an exclude glob matches;
a rejected directory is not descended into. -/
def walkKeep (pm : String → String → Bool) (excludePatterns : List String)
    (e : FsEntry) : Bool :=
  !(matchesAnyPattern pm excludePatterns e.path)

/-- The (sequential) walk: yield an entry, then its subtrees, pruning whole
subtrees rejected by `filter_entry`. -/
def walkTree (keep : FsEntry → Bool) : FsTree → List FsEntry
  | .node e children =>
    if keep e then
      e :: (children.attach.map (fun c => walkTree keep c.1)).flatten
    else []
decreasing_by
  simp only [FsTree.node.sizeOf_spec]
  have hlt := List.sizeOf_lt_of_mem c.2
  omega

/-- The per-entry processing shared verbatim by both search functions:
skip entries no include glob matches, then `FileType::accept`. -/
def acceptEntry (pm : String → String → Bool) (includePatterns : List String)
    (ft : FileType) (e : FsEntry) : Option String :=
  if !(matchesAnyPattern pm includePatterns e.path) then none
  else ft.accept e

/-- Embedding of `search_paths_sequential` (`file_utils.rs` lines 37–73): walk, filter,
accept, and collect through a `HashSet`. -/
def search_paths_sequential (pm : String → String → Bool)
    (includePatterns excludePatterns : List String) (ft : FileType)
    (root : FsTree) : Finset String :=
  ((walkTree (walkKeep pm excludePatterns) root).filterMap
    (acceptEntry pm includePatterns ft)).toFinset

/-- Embedding of `search_paths` (`file_utils.rs` lines 75–161): the parallel walker runs
the identical per-entry processing over the same pruned entries, delivered in
a scheduler-dependent order (`schedule`), pushing into a mutex-guarded vector
and collecting through a `HashSet`. -/
def search_paths (pm : String → String → Bool) (includePatterns : List String)
    (ft : FileType) (schedule : List FsEntry) : Finset String :=
  (schedule.filterMap (acceptEntry pm includePatterns ft)).toFinset

/-- C9 (confirmed): whatever order the parallel scheduler delivers the pruned
walk entries in, `search_paths` returns the same set of paths as
`search_paths_sequential` on the same root, include globs, exclude globs and
file kind; in particular any two parallel runs (any two schedules) agree, so
repeated runs on an unchanged tree return the same set. -/
theorem C9_search_parallel_equals_sequential
    (pm : String → String → Bool)
    (includePatterns excludePatterns : List String) (ft : FileType)
    (root : FsTree) (sched sched' : List FsEntry)
    (h : sched.Perm (walkTree (walkKeep pm excludePatterns) root))
    (h' : sched'.Perm (walkTree (walkKeep pm excludePatterns) root)) :
    search_paths pm includePatterns ft sched
        = search_paths_sequential pm includePatterns excludePatterns ft root ∧
    search_paths pm includePatterns ft sched
        = search_paths pm includePatterns ft sched' := by
  have key : ∀ s : List FsEntry,
      s.Perm (walkTree (walkKeep pm excludePatterns) root) →
      search_paths pm includePatterns ft s
        = search_paths_sequential pm includePatterns excludePatterns ft root := by
    intro s hs
    unfold search_paths search_paths_sequential
    exact List.toFinset_eq_of_perm _ _
      (hs.filterMap (acceptEntry pm includePatterns ft))
  exact ⟨key sched h, (key sched h).trans (key sched' h').symm⟩

/-- A two-file workspace tree for the C9 witness. -/
def c9root : FsTree :=
  .node { path := "/w", isDir := true, isFile := false, parent := none }
    [ .node { path := "/w/a.py", isDir := false, isFile := true
            , parent := some "/w" } []
    , .node { path := "/w/b.py", isDir := false, isFile := true
            , parent := some "/w" } [] ]

/-- C9 witness: on the concrete two-file tree, a parallel schedule delivering
the walk entries in REVERSE order yields the same path set as the sequential
search, and agrees with the in-order schedule. -/
theorem C9_search_parallel_equals_sequential_witness :
    search_paths (fun _ _ => true) ["*.py"] .file
        ((walkTree (walkKeep (fun _ _ => true) []) c9root).reverse)
      = search_paths_sequential (fun _ _ => true) ["*.py"] [] .file c9root ∧
    search_paths (fun _ _ => true) ["*.py"] .file
        ((walkTree (walkKeep (fun _ _ => true) []) c9root).reverse)
      = search_paths (fun _ _ => true) ["*.py"] .file
          (walkTree (walkKeep (fun _ _ => true) []) c9root) :=
  C9_search_parallel_equals_sequential (fun _ _ => true) ["*.py"] [] .file
    c9root _ _ (List.reverse_perm _) (List.Perm.refl _)

/-! ### C10: ENABLED_LANGUAGES parsing and workspace language detection

`Manager::parse_language` (gateway `manager.rs` lines 70–86),
`Manager::get_enabled_languages` (lines 88–94) and
`Manager::detect_languages_in_workspace` (lines 96–177). The env var is
`Option String` (`std::env::var(…).ok()`); the per-language file search
(`search_paths` with the language's patterns) is the oracle
`hasMatchingFiles`. -/

/-- Rust `str::trim` on the character list (whitespace boundary trimming). -/
def trimChars (cs : List Char) : List Char :=
  ((cs.dropWhile Char.isWhitespace).reverse.dropWhile Char.isWhitespace).reverse

/-- ASCII lowercasing; Rust `str::to_lowercase` agrees with this on every key
`parse_language` recognizes. -/
def lowerChar (c : Char) : Char :=
  if 'A' ≤ c ∧ c ≤ 'Z' then Char.ofNat (c.toNat + 32) else c

/-- Embedding of `Manager::parse_language`: the trimmed, lowercased value matched against
the recognized language keys. -/
def parse_language (lang : String) : Option SupportedLanguages :=
  match String.mk ((trimChars lang.data).map lowerChar) with
  | "python" => some .python
  | "typescript_javascript" => some .typescriptJavascript
  | "typescript" => some .typescriptJavascript
  | "javascript" => some .typescriptJavascript
  | "rust" => some .rust
  | "cpp" => some .cpp
  | "c++" => some .cpp
  | "csharp" => some .csharp
  | "c#" => some .csharp
  | "java" => some .java
  | "golang" => some .golang
  | "go" => some .golang
  | "php" => some .php
  | "ruby" => some .ruby
  | "ruby_sorbet" => some .rubySorbet
  | "sorbet" => some .rubySorbet
  | _ => none

/-- Embedding of `Manager::get_enabled_languages`: `None` when the variable is unset;
otherwise split on commas and keep the recognized languages
(`langs.split(',').filter_map(Self::parse_language).collect()`; the
`HashSet` collection is membership-equivalent to the list kept here). -/
def get_enabled_languages (envVar : Option String) :
    Option (List SupportedLanguages) :=
  envVar.map (fun langs =>
    ((splitChar ',' langs.data []).map (fun cs => String.mk cs)).filterMap
      parse_language)

/-- The fixed candidate order of `detect_languages_in_workspace`. -/
def allLanguages : List SupportedLanguages :=
  [ .python, .typescriptJavascript, .rust, .cpp, .csharp
  , .java, .golang, .php, .ruby, .rubySorbet ]

/-- Embedding of `Manager::detect_languages_in_workspace`: for each candidate language,
skip it when an enabled set exists and does not contain it, then keep it
exactly when the workspace search for its file patterns found any file. -/
def detect_languages_in_workspace (enabledEnv : Option String)
    (hasMatchingFiles : SupportedLanguages → Bool) : List SupportedLanguages :=
  let enabled := get_enabled_languages enabledEnv
  allLanguages.filter (fun lsp =>
    (match enabled with
     | some e => e.contains lsp
     | none => true) && hasMatchingFiles lsp)

/-- C10 (confirmed): an ENABLED_LANGUAGES value of the empty string — or any
value whose comma-separated parts are all unrecognized — yields an EMPTY
enabled set and makes `detect_languages_in_workspace` detect no language at
all, whatever files the workspace holds; only an UNSET variable (None) leaves
the enabled set absent, in which case exactly the languages with matching
files are detected. -/
theorem C10_enabled_languages_empty_vs_unset
    (hasMatchingFiles : SupportedLanguages → Bool) :
    get_enabled_languages (some "") = some [] ∧
    detect_languages_in_workspace (some "") hasMatchingFiles = [] ∧
    (∀ s : String,
      (((splitChar ',' s.data []).map (fun cs => String.mk cs)).all
        (fun part => (parse_language part).isNone)) = true →
      get_enabled_languages (some s) = some [] ∧
      detect_languages_in_workspace (some s) hasMatchingFiles = []) ∧
    get_enabled_languages none = none ∧
    detect_languages_in_workspace none hasMatchingFiles
      = allLanguages.filter hasMatchingFiles := by
  have hdetect : ∀ s : String, get_enabled_languages (some s) = some [] →
      detect_languages_in_workspace (some s) hasMatchingFiles = [] := by
    intro s hs
    unfold detect_languages_in_workspace
    rw [hs]
    rfl
  refine ⟨rfl, hdetect "" rfl, ?_, rfl, rfl⟩
  intro s hall
  have hge : get_enabled_languages (some s) = some [] := by
    have hnil : ((splitChar ',' s.data []).map (fun cs => String.mk cs)).filterMap
        parse_language = [] := by
      rw [List.filterMap_eq_nil_iff]
      intro part hpart
      have h2 := (List.all_eq_true.mp hall) part hpart
      simpa [Option.isNone_iff_eq_none] using h2
    show some (((splitChar ',' s.data []).map (fun cs => String.mk cs)).filterMap
      parse_language) = some []
    rw [hnil]
  exact ⟨hge, hdetect s hge⟩

/-- C10 witness: the empty value, the all-unrecognized value
"invalid1,invalid2", and the unset variable, with every language having
matching files. -/
theorem C10_enabled_languages_empty_vs_unset_witness :
    get_enabled_languages (some "") = some [] ∧
    detect_languages_in_workspace (some "") (fun _ => true) = [] ∧
    (get_enabled_languages (some "invalid1,invalid2") = some [] ∧
      detect_languages_in_workspace (some "invalid1,invalid2")
        (fun _ => true) = []) ∧
    get_enabled_languages none = none ∧
    detect_languages_in_workspace none (fun _ => true)
      = allLanguages.filter (fun _ => true) := by
  obtain ⟨h1, h2, h3, h4, h5⟩ :=
    C10_enabled_languages_empty_vs_unset (fun _ => true)
  exact ⟨h1, h2, h3 "invalid1,invalid2" (by decide), h4, h5⟩

end LsProxy
